import Mathlib

/-!
Verification of the Prod-Bench media-production pipeline against its
specification.  The web preset editor and REST client are embedded from
src/web/src/api.ts and the PresetEditor/types sources; the orchestration
core (configuration resolver, agents, orchestrator, log writer, backup
retention, dry-run validator) is not among the repository files here, so
those parts are modelled from the specification's words, as marked on each
definition.
-/

namespace ProdBench

/-! Preset data model, embedded from the repository's types source
(interfaces LevelerAlgo .. Preset and DEFAULT_PRESET). Numeric fields are
modelled as integers; every numeric literal appearing in the sources is
integral. -/

/-- A JSON-ish scalar that is either a number or a string, for the
fields typed `number | string` in the source. -/
inductive NumOrStr where
  | num (n : Int)
  | str (s : String)
deriving DecidableEq, Repr

structure LevelerAlgo where
  enabled : Bool
  mode : String
  strength_percent : Int
  compressor : String
deriving DecidableEq, Repr

structure FilteringAlgo where
  enabled : Bool
  method : String
deriving DecidableEq, Repr

structure LoudnessAlgo where
  enabled : Bool
  target_lufs : Int
  peak_mode : String
  true_peak_db : Int
  dual_mono : Bool
  method : String
deriving DecidableEq, Repr

structure NoiseAlgo where
  enabled : Bool
  denoise_method : String
  remove_noise_amount : NumOrStr
  remove_reverb_amount : NumOrStr
  remove_breaths : String
deriving DecidableEq, Repr

structure CuttingAlgo where
  enabled : Bool
deriving DecidableEq, Repr

structure Algorithms where
  leveler : LevelerAlgo
  filtering : FilteringAlgo
  loudness : LoudnessAlgo
  noise : NoiseAlgo
  cutting : CuttingAlgo
deriving DecidableEq, Repr

structure Preset where
  chapters_text : String
  algorithms : Algorithms
deriving DecidableEq, Repr

def DEFAULT_PRESET : Preset :=
  { chapters_text := ""
    algorithms :=
      { leveler := { enabled := true, mode := "default_leveler",
                     strength_percent := 100, compressor := "auto" }
        filtering := { enabled := true, method := "voice_autoeq" }
        loudness := { enabled := true, target_lufs := -14, peak_mode := "auto",
                      true_peak_db := -1, dual_mono := false,
                      method := "program_loudness" }
        noise := { enabled := true, denoise_method := "dynamic",
                   remove_noise_amount := .num 100,
                   remove_reverb_amount := .num 100, remove_breaths := "off" }
        cutting := { enabled := false } } }

/-! The preset editor's updateAlgo. In the source, `updateAlgo(key, data)`
replaces `preset.algorithms[key]` by the JavaScript spread
`{...p.algorithms[key], ...data}` and leaves the rest of the preset alone.
A `Partial` patch is a record of optional fields: a present field is a key
present in `data`, an absent one a key left out, and the spread keeps the
old value exactly for absent keys (`Option.getD`). -/

structure LevelerPatch where
  enabled : Option Bool := none
  mode : Option String := none
  strength_percent : Option Int := none
  compressor : Option String := none

structure FilteringPatch where
  enabled : Option Bool := none
  method : Option String := none

structure LoudnessPatch where
  enabled : Option Bool := none
  target_lufs : Option Int := none
  peak_mode : Option String := none
  true_peak_db : Option Int := none
  dual_mono : Option Bool := none
  method : Option String := none

structure NoisePatch where
  enabled : Option Bool := none
  denoise_method : Option String := none
  remove_noise_amount : Option NumOrStr := none
  remove_reverb_amount : Option NumOrStr := none
  remove_breaths : Option String := none

structure CuttingPatch where
  enabled : Option Bool := none

def LevelerAlgo.spread (a : LevelerAlgo) (d : LevelerPatch) : LevelerAlgo :=
  { enabled := d.enabled.getD a.enabled
    mode := d.mode.getD a.mode
    strength_percent := d.strength_percent.getD a.strength_percent
    compressor := d.compressor.getD a.compressor }

def FilteringAlgo.spread (a : FilteringAlgo) (d : FilteringPatch) : FilteringAlgo :=
  { enabled := d.enabled.getD a.enabled
    method := d.method.getD a.method }

def LoudnessAlgo.spread (a : LoudnessAlgo) (d : LoudnessPatch) : LoudnessAlgo :=
  { enabled := d.enabled.getD a.enabled
    target_lufs := d.target_lufs.getD a.target_lufs
    peak_mode := d.peak_mode.getD a.peak_mode
    true_peak_db := d.true_peak_db.getD a.true_peak_db
    dual_mono := d.dual_mono.getD a.dual_mono
    method := d.method.getD a.method }

def NoiseAlgo.spread (a : NoiseAlgo) (d : NoisePatch) : NoiseAlgo :=
  { enabled := d.enabled.getD a.enabled
    denoise_method := d.denoise_method.getD a.denoise_method
    remove_noise_amount := d.remove_noise_amount.getD a.remove_noise_amount
    remove_reverb_amount := d.remove_reverb_amount.getD a.remove_reverb_amount
    remove_breaths := d.remove_breaths.getD a.remove_breaths }

def CuttingAlgo.spread (a : CuttingAlgo) (d : CuttingPatch) : CuttingAlgo :=
  { enabled := d.enabled.getD a.enabled }

/-- The keys of the `Algorithms` record, the possible first arguments of
`updateAlgo`. -/
inductive AlgoKey where
  | leveler | filtering | loudness | noise | cutting
deriving DecidableEq, Repr

/-- A call `updateAlgo(key, data)`: the key together with a patch of the
matching section type. -/
inductive AlgoUpdate where
  | leveler (d : LevelerPatch)
  | filtering (d : FilteringPatch)
  | loudness (d : LoudnessPatch)
  | noise (d : NoisePatch)
  | cutting (d : CuttingPatch)

def AlgoUpdate.key : AlgoUpdate → AlgoKey
  | .leveler _ => .leveler
  | .filtering _ => .filtering
  | .loudness _ => .loudness
  | .noise _ => .noise
  | .cutting _ => .cutting

/-- Embedded from the PresetEditor source: `updateAlgo` rebuilds the preset
with section `key` spread-updated and everything else taken from the old
preset. -/
def updateAlgo (u : AlgoUpdate) (p : Preset) : Preset :=
  match u with
  | .leveler d =>
      { p with algorithms := { p.algorithms with leveler := p.algorithms.leveler.spread d } }
  | .filtering d =>
      { p with algorithms := { p.algorithms with filtering := p.algorithms.filtering.spread d } }
  | .loudness d =>
      { p with algorithms := { p.algorithms with loudness := p.algorithms.loudness.spread d } }
  | .noise d =>
      { p with algorithms := { p.algorithms with noise := p.algorithms.noise.spread d } }
  | .cutting d =>
      { p with algorithms := { p.algorithms with cutting := p.algorithms.cutting.spread d } }

/-- Equality of one algorithm section between two `Algorithms` records,
selected by key. -/
def sectionAgrees (k : AlgoKey) (a b : Algorithms) : Prop :=
  match k with
  | .leveler => a.leveler = b.leveler
  | .filtering => a.filtering = b.filtering
  | .loudness => a.loudness = b.loudness
  | .noise => a.noise = b.noise
  | .cutting => a.cutting = b.cutting

/-- What the spread semantics promises inside the updated section: each
field named in the patch takes the patch's value and each absent field
keeps its previous value. -/
def patchApplied : AlgoUpdate → Algorithms → Algorithms → Prop
  | .leveler d, old, new =>
      new.leveler.enabled = d.enabled.getD old.leveler.enabled ∧
      new.leveler.mode = d.mode.getD old.leveler.mode ∧
      new.leveler.strength_percent = d.strength_percent.getD old.leveler.strength_percent ∧
      new.leveler.compressor = d.compressor.getD old.leveler.compressor
  | .filtering d, old, new =>
      new.filtering.enabled = d.enabled.getD old.filtering.enabled ∧
      new.filtering.method = d.method.getD old.filtering.method
  | .loudness d, old, new =>
      new.loudness.enabled = d.enabled.getD old.loudness.enabled ∧
      new.loudness.target_lufs = d.target_lufs.getD old.loudness.target_lufs ∧
      new.loudness.peak_mode = d.peak_mode.getD old.loudness.peak_mode ∧
      new.loudness.true_peak_db = d.true_peak_db.getD old.loudness.true_peak_db ∧
      new.loudness.dual_mono = d.dual_mono.getD old.loudness.dual_mono ∧
      new.loudness.method = d.method.getD old.loudness.method
  | .noise d, old, new =>
      new.noise.enabled = d.enabled.getD old.noise.enabled ∧
      new.noise.denoise_method = d.denoise_method.getD old.noise.denoise_method ∧
      new.noise.remove_noise_amount = d.remove_noise_amount.getD old.noise.remove_noise_amount ∧
      new.noise.remove_reverb_amount = d.remove_reverb_amount.getD old.noise.remove_reverb_amount ∧
      new.noise.remove_breaths = d.remove_breaths.getD old.noise.remove_breaths
  | .cutting d, old, new =>
      new.cutting.enabled = d.enabled.getD old.cutting.enabled

/-! REST client, embedded from src/web/src/api.ts. A `WebResponse` is the
`fetch` response as the client consumes it: the `ok` flag, the body as
text (`res.text()`), and the body as parsed JSON of the expected type
(`res.json()`). Throwing is modelled by `Except.error` carrying the
`Error` message. -/

structure WebResponse (α : Type) where
  ok : Bool
  bodyText : String
  json : α

/-- Embedded from api.ts `getPreset`: on a non-ok response throw
"Failed to load preset", otherwise return the parsed body. -/
def getPreset (res : WebResponse Preset) : Except String Preset :=
  if res.ok then .ok res.json else .error "Failed to load preset"

/-- Embedded from api.ts `savePreset`: on a non-ok response throw
"Failed to save preset", otherwise return nothing. -/
def savePreset (res : WebResponse Unit) : Except String Unit :=
  if res.ok then .ok () else .error "Failed to save preset"

/-- Embedded from api.ts `uploadAndProcess`: on a non-ok response read the
body text and throw "Processing failed: " followed by it, otherwise return
the parsed body. -/
def uploadAndProcess {α : Type} (res : WebResponse α) : Except String α :=
  if !res.ok then .error ("Processing failed: " ++ res.bodyText)
  else .ok res.json

/-! Configuration resolver. The resolver itself (the Python orchestration
core) is not among the repository's files, only its documentation and
callers are; it is therefore modelled from the specification, as the doc
comments note. A configuration document is an association list of named
sections, each an association list of scalar settings. -/

/-- A configuration scalar: number, string or boolean. -/
inductive CfgVal where
  | num (n : Int)
  | str (s : String)
  | bool (b : Bool)
deriving DecidableEq, Repr

abbrev CfgSection := List (String × CfgVal)

abbrev ConfigDoc := List (String × CfgSection)

/-- First value bound to key `k` in an association list, or none. -/
def alookup {α : Type} (k : String) : List (String × α) → Option α
  | [] => none
  | kv :: rest => if k = kv.1 then some kv.2 else alookup k rest

/-- Modelled from the spec: one section's deep-merge step — keys present in
the override replace the base key's value, keys absent are untouched, and
override keys the base lacks are carried along (schema validation rejects
them later if unknown). -/
def mergeSection (base ovr : CfgSection) : CfgSection :=
  base.map (fun kv => (kv.1, (alookup kv.1 ovr).getD kv.2)) ++
    ovr.filter (fun kv => (alookup kv.1 base).isNone)

/-- Modelled from the spec: deep merge of an override document over a base
document, section by section and key by key, the override winning per key. -/
def deepMerge (base ovr : ConfigDoc) : ConfigDoc :=
  base.map (fun sv => (sv.1,
    match alookup sv.1 ovr with
    | none => sv.2
    | some os => mergeSection sv.2 os)) ++
    ovr.filter (fun sv => (alookup sv.1 base).isNone)

/-- Value of key `k` of section `s` in a document. -/
def lookupVal (d : ConfigDoc) (s k : String) : Option CfgVal :=
  (alookup s d).bind (fun sec => alookup k sec)

def knownSections : List String :=
  ["audio", "captions", "video", "thumbnails", "backup"]

/-- Modelled from the spec: the range constraints named there — `crf` in
[0,51] and `count` at least 1 — as per-value violation messages. -/
def valueViolations (s k : String) (v : CfgVal) : List String :=
  (if s = "video" ∧ k = "crf" then
    match v with
    | .num n => if 0 ≤ n ∧ n ≤ 51 then [] else ["crf out of range"]
    | _ => ["crf is not a number"]
  else []) ++
  (if s = "thumbnails" ∧ k = "count" then
    match v with
    | .num n => if 1 ≤ n then [] else ["count must be at least 1"]
    | _ => ["count is not a number"]
  else [])

/-- Modelled from the spec: schema validation of the merged document,
returning every violated constraint, not just the first. -/
def docViolations (d : ConfigDoc) : List String :=
  (d.map (fun sv => sv.1)).filter (fun s => !(knownSections.contains s)) ++
    (d.map (fun sv => sv.2.map (fun kv => valueViolations sv.1 kv.1 kv.2))).flatten.flatten

/-- Top-level section names an override introduces that the base lacks. -/
def unknownSections (base ovr : ConfigDoc) : List String :=
  (ovr.map (fun sv => sv.1)).filter (fun s => (alookup s base).isNone)

inductive ConfigError where
  | configNotFound
  | schemaError (violations : List String)
deriving DecidableEq, Repr

/-- Modelled from the spec: apply one optional override layer by deep
merge, rejecting unknown top-level sections with a schema error. -/
def applyLayer (acc : ConfigDoc) : Option ConfigDoc → Except ConfigError ConfigDoc
  | none => .ok acc
  | some o =>
      if (unknownSections acc o).isEmpty then .ok (deepMerge acc o)
      else .error (.schemaError (unknownSections acc o))

/-- Modelled from the spec: the Configuration Resolver `resolve(basePath,
overridePath?, overrideMapping?)` of the missing orchestration core — the
loaded base document, deep-merged with the override file then the override
mapping, validated last against the fixed schema. -/
def resolve (base : ConfigDoc) (ovrFile ovrMap : Option ConfigDoc) :
    Except ConfigError ConfigDoc :=
  match applyLayer base ovrFile with
  | .error e => .error e
  | .ok a =>
      match applyLayer a ovrMap with
      | .error e => .error e
      | .ok b =>
          if (docViolations b).isEmpty then .ok b
          else .error (.schemaError (docViolations b))

/-! Agent contract and Pipeline Orchestrator. The agents and the
orchestrator are part of the Python orchestration core absent from the
repository's files here, so they are modelled from the specification. An
agent's interaction with the outside world (external tools, the
filesystem) is abstracted as an `AgentBehavior`: what the agent's body
would produce on this input — declared output paths on success, or an
internal failure message — plus the elapsed wall-clock time. -/

/-- The five agent variants, in their fixed execution order. -/
inductive AgentName where
  | backup | audio | captions | video | thumbnails
deriving DecidableEq, Repr

/-- The string identifier an agent reports in its results. -/
def AgentName.id : AgentName → String
  | .backup => "BackupAgent"
  | .audio => "AudioProcessorAgent"
  | .captions => "CaptionGeneratorAgent"
  | .video => "VideoEnhancerAgent"
  | .thumbnails => "ThumbnailGeneratorAgent"

/-- Modelled from the spec: the fixed execution order Backup →
AudioProcessor → CaptionGenerator → VideoEnhancer → ThumbnailGenerator. -/
def agentOrder : List AgentName :=
  [.backup, .audio, .captions, .video, .thumbnails]

/-- Modelled from the spec: the common AgentResult envelope; the
agent-specific payload is the list of declared output paths. -/
structure AgentResult where
  success : Bool
  agent : String
  elapsed_time : Nat
  error : Option String
  outputs : List String
deriving DecidableEq, Repr

/-- What one agent's body does on one input: either its declared output
paths, or an internal failure (missing tool, bad input, subprocess
non-zero exit) with a message; and the elapsed wall-clock time. -/
structure AgentBehavior where
  outcome : Except String (List String)
  elapsed : Nat

/-- Modelled from the spec: an agent's `execute` boundary — a total
function into AgentResult, so nothing is raised past it: an internal
failure becomes success=false with a non-null error message naming the
stage, and elapsed time is reported regardless of outcome. -/
def runAgent (n : AgentName) (b : AgentBehavior) : AgentResult :=
  match b.outcome with
  | .ok paths =>
      { success := true, agent := n.id, elapsed_time := b.elapsed,
        error := none, outputs := paths }
  | .error msg =>
      { success := false, agent := n.id, elapsed_time := b.elapsed,
        error := some (n.id ++ ": " ++ msg), outputs := [] }

/-- The per-agent results of one run, keyed by execution order. -/
def pipelineResults (env : AgentName → AgentBehavior) : List AgentResult :=
  agentOrder.map (fun n => runAgent n (env n))

/-- Modelled from the spec: the result bundle returned by value to the
caller; optional fields are null when the producing stage failed. -/
structure PipelineRunResult where
  final_video_path : Option String
  captions_srt_path : Option String
  thumbnail_paths : Option (List String)
  processing_log_path : Option String
  total_time : Nat
  error_messages : List String
deriving DecidableEq, Repr

/-- Modelled from the spec: the agent-execution phase of one run —
invoke every agent in the fixed order, continue past failures, aggregate
the non-null error fields in agent order, and assemble the bundle from
each agent's declared outputs. -/
def processAgents (outputDir : String) (env : AgentName → AgentBehavior) :
    PipelineRunResult :=
  { final_video_path := (runAgent .video (env .video)).outputs.head?
    captions_srt_path := (runAgent .captions (env .captions)).outputs.head?
    thumbnail_paths :=
      if (runAgent .thumbnails (env .thumbnails)).success
      then some (runAgent .thumbnails (env .thumbnails)).outputs else none
    processing_log_path := some (outputDir ++ "/logs/run.json")
    total_time := ((pipelineResults env).map (fun r => r.elapsed_time)).sum
    error_messages := (pipelineResults env).filterMap (fun r => r.error) }

/-- Rendering of a fatal configuration error into one message. -/
def configErrorMessage : ConfigError → String
  | .configNotFound => "ConfigNotFound"
  | .schemaError vs => "ConfigSchemaError: " ++ String.intercalate "; " vs

/-- Modelled from the spec: the orchestrator's
`process(input_path, output_dir, configOverrides?)` of the missing
orchestration core — resolve the effective configuration first; a
configuration error is fatal, surfaced as a populated result whose
error_messages carries it without any agent running; otherwise run every
agent in order and assemble the bundle. The operation is a total
function: it never raises. -/
def process (base : ConfigDoc) (overrides : Option ConfigDoc)
    (inputPath outputDir : String) (env : AgentName → AgentBehavior) :
    PipelineRunResult :=
  match resolve base none overrides with
  | .error e =>
      { final_video_path := none, captions_srt_path := none,
        thumbnail_paths := none, processing_log_path := none,
        total_time := 0, error_messages := [configErrorMessage e] }
  | .ok _ =>
      let _ := inputPath
      processAgents outputDir env

/-! Processing Log Writer. The writer is part of the missing orchestration
core; it is modelled from the specification: serialize the record, write
it line by line to a temporary path, then atomically rename the temporary
file onto the visible log path. An interrupted write is a run of only a
prefix of the plan's steps. -/

/-- Modelled from the spec: the durable per-run record. -/
structure ProcessingLogRecord where
  timestamp : String
  config_path : String
  total_time_seconds : Nat
  success : Bool
  agent_results : List (String × AgentResult)
deriving DecidableEq, Repr

/-- The serialized form of a record, one line per field or agent entry. -/
def serializeRecord (r : ProcessingLogRecord) : List String :=
  ["timestamp=" ++ r.timestamp,
   "config_path=" ++ r.config_path,
   "total_time_seconds=" ++ toString r.total_time_seconds,
   "success=" ++ toString r.success] ++
  r.agent_results.map (fun ar =>
    ar.1 ++ "=" ++ toString ar.2.success ++ "," ++ ar.2.error.getD "" ++ ","
      ++ toString ar.2.elapsed_time)

/-- The two files the writer can touch: the temporary path's content and
the visible log path's content, none when the file is absent. -/
structure LogDirState where
  tempFile : Option (List String)
  logFile : Option (List String)
deriving DecidableEq, Repr

/-- One primitive effect of the writer on the log directory. -/
inductive LogStep where
  | appendTemp (line : String)
  | renameTempToLog
deriving DecidableEq, Repr

def stepFS (fs : LogDirState) : LogStep → LogDirState
  | .appendTemp l => { fs with tempFile := some (fs.tempFile.getD [] ++ [l]) }
  | .renameTempToLog => { tempFile := none, logFile := fs.tempFile }

/-- Modelled from the spec: the writer's plan — stream the serialized
record to the temporary path, then rename it onto the log path. -/
def writePlan (r : ProcessingLogRecord) : List LogStep :=
  (serializeRecord r).map .appendTemp ++ [.renameTempToLog]

def runSteps (fs : LogDirState) (steps : List LogStep) : LogDirState :=
  steps.foldl stepFS fs

/-- A log directory before the run: neither file exists. -/
def freshLogDir : LogDirState := { tempFile := none, logFile := none }

/-! Backup agent retention policy, modelled from the specification: after
each backup, entries older than the configured max age or beyond the
configured max count are deleted, evicting oldest-first. A directory is a
list of entries ordered oldest-first (ascending created_at). -/

structure BackupEntry where
  original_path : String
  backup_path : String
  created_at : Nat
deriving DecidableEq, Repr

/-- Modelled from the spec: the retention check — keep entries within the
max age, then of those keep only the newest maxCount, dropping the
oldest. -/
def applyRetention (now maxAge maxCount : Nat) (entries : List BackupEntry) :
    List BackupEntry :=
  let inAge := entries.filter (fun b => now - b.created_at ≤ maxAge)
  inAge.drop (inAge.length - maxCount)

/-- Modelled from the spec: one backup — append the new entry, then run
the retention check (it runs after every backup, not on a schedule). -/
def performBackup (now maxAge maxCount : Nat) (entries : List BackupEntry)
    (e : BackupEntry) : List BackupEntry :=
  applyRetention now maxAge maxCount (entries ++ [e])

/-! Dry-Run Validator, modelled from the specification: environment
precondition checks with no mutating work, all findings returned as
data. -/

/-- Modelled from the spec: the observable environment the validator
consults — file existence and readability, external tool availability,
output directory writability — plus the effective configuration. -/
structure World where
  fileExists : String → Bool
  fileReadable : String → Bool
  toolAvailable : String → Bool
  dirWritable : String → Bool
  config : ConfigDoc
  outputDir : String

structure DryRunReport where
  all_passed : Bool
  checks : List (String × Bool)
deriving DecidableEq, Repr

def dryRunCheckNames : List String :=
  ["input_exists", "input_readable", "config_schema_valid",
   "ffmpeg_available", "whisper_available", "output_dir_writable"]

/-- The full checks mapping, one entry per precondition, always all of
them. -/
def dryRunChecks (w : World) (input : String) : List (String × Bool) :=
  [("input_exists", w.fileExists input),
   ("input_readable", w.fileReadable input),
   ("config_schema_valid", (docViolations w.config).isEmpty),
   ("ffmpeg_available", w.toolAvailable "ffmpeg"),
   ("whisper_available", w.toolAvailable "whisper"),
   ("output_dir_writable", w.dirWritable w.outputDir)]

/-- Modelled from the spec: `dry_run(input_path)` — performs the checks
without any mutating effect and returns every finding; the world comes
back untouched. -/
def dry_run (w : World) (input : String) : DryRunReport × World :=
  ({ all_passed := (dryRunChecks w input).all (fun c => c.2),
     checks := dryRunChecks w input }, w)

end ProdBench

namespace ProdBench

/-! Association-list lemmas used to characterize the deep merge. -/

theorem alookup_append {α : Type} (k : String) (l₁ l₂ : List (String × α)) :
    alookup k (l₁ ++ l₂) = (alookup k l₁).orElse (fun _ => alookup k l₂) := by
  induction l₁ with
  | nil => simp [alookup]
  | cons kv rest ih =>
      by_cases h : k = kv.1 <;> simp [alookup, h, ih]

theorem alookup_merge_map (o : CfgSection) (b : CfgSection) (k : String) :
    alookup k (b.map (fun kv => (kv.1, (alookup kv.1 o).getD kv.2))) =
      (alookup k b).map (fun v => (alookup k o).getD v) := by
  induction b with
  | nil => simp [alookup]
  | cons kv rest ih =>
      by_cases h : k = kv.1
      · subst h; simp [alookup]
      · simp [alookup, h, ih]

theorem alookup_deep_map (o : ConfigDoc) (b : ConfigDoc) (s : String) :
    alookup s (b.map (fun sv => (sv.1,
        match alookup sv.1 o with
        | none => sv.2
        | some os => mergeSection sv.2 os))) =
      (alookup s b).map (fun sec =>
        match alookup s o with
        | none => sec
        | some os => mergeSection sec os) := by
  induction b with
  | nil => simp [alookup]
  | cons sv rest ih =>
      by_cases h : s = sv.1
      · subst h; simp [alookup]
      · simp [alookup, h, ih]

theorem alookup_filter_of_none {α β : Type} (k : String) (b : List (String × β))
    (o : List (String × α)) (h : alookup k b = none) :
    alookup k (o.filter (fun kv => (alookup kv.1 b).isNone)) = alookup k o := by
  induction o with
  | nil => simp
  | cons kv rest ih =>
      by_cases hk : k = kv.1
      · subst hk
        simp [List.filter_cons, h, alookup]
      · by_cases hp : (alookup kv.1 b).isNone <;>
          simp [List.filter_cons, hp, alookup, hk, ih]

theorem alookup_filter_of_some {α β : Type} (k : String) (b : List (String × β))
    (o : List (String × α)) (v : β) (h : alookup k b = some v) :
    alookup k (o.filter (fun kv => (alookup kv.1 b).isNone)) = none := by
  induction o with
  | nil => simp [alookup]
  | cons kv rest ih =>
      by_cases hk : k = kv.1
      · subst hk
        simp [List.filter_cons, h, ih, alookup]
      · by_cases hp : (alookup kv.1 b).isNone <;>
          simp [List.filter_cons, hp, alookup, hk, ih]

theorem alookup_mergeSection (b o : CfgSection) (k : String) :
    alookup k (mergeSection b o) = (alookup k o).orElse (fun _ => alookup k b) := by
  unfold mergeSection
  rw [alookup_append, alookup_merge_map]
  cases hb : alookup k b with
  | none =>
      rw [alookup_filter_of_none k b o hb]
      cases ho : alookup k o <;> simp [Option.orElse]
  | some v =>
      cases ho : alookup k o <;> simp [Option.orElse, ho]

theorem alookup_deepMerge (b o : ConfigDoc) (s : String) :
    alookup s (deepMerge b o) =
      match alookup s b, alookup s o with
      | some bs, some os => some (mergeSection bs os)
      | some bs, none => some bs
      | none, x => x := by
  unfold deepMerge
  rw [alookup_append, alookup_deep_map]
  cases hb : alookup s b with
  | none =>
      rw [alookup_filter_of_none s b o hb]
      cases ho : alookup s o <;> simp [Option.orElse]
  | some bs =>
      rw [alookup_filter_of_some s b o bs hb]
      cases ho : alookup s o <;> simp [Option.orElse, ho]

theorem lookupVal_deepMerge (b o : ConfigDoc) (s k : String) :
    lookupVal (deepMerge b o) s k =
      (lookupVal o s k).orElse (fun _ => lookupVal b s k) := by
  unfold lookupVal
  rw [alookup_deepMerge]
  cases hb : alookup s b with
  | none =>
      cases ho : alookup s o with
      | none => simp [Option.orElse]
      | some os =>
          simp only [Option.bind]
          cases hk : alookup k os <;> simp [Option.orElse, hk]
  | some bs =>
      cases ho : alookup s o with
      | none =>
          simp only [Option.bind]
          cases hk : alookup k bs <;> simp [Option.orElse, hk]
      | some os =>
          simp only [Option.bind]
          rw [alookup_mergeSection]

theorem deepMerge_nil (b : ConfigDoc) : deepMerge b [] = b := by
  unfold deepMerge
  simp [alookup]

/-- A successful resolve computes exactly the two-layer deep merge of the
base document with each present override layer, an absent layer acting as
the empty override. -/
theorem applyLayer_ok_eq (acc : ConfigDoc) (l : Option ConfigDoc) (r : ConfigDoc)
    (h : applyLayer acc l = .ok r) : r = deepMerge acc (l.getD []) := by
  cases l with
  | none =>
      injection h with h
      subst h
      exact (deepMerge_nil acc).symm
  | some o =>
      simp only [applyLayer] at h
      split at h
      · injection h with h
        subst h
        rfl
      · exact Except.noConfusion h

theorem resolve_ok_eq (base : ConfigDoc) (ovrFile ovrMap : Option ConfigDoc)
    (C : ConfigDoc) (h : resolve base ovrFile ovrMap = .ok C) :
    C = deepMerge (deepMerge base (ovrFile.getD [])) (ovrMap.getD []) := by
  unfold resolve at h
  split at h
  · exact Except.noConfusion h
  · rename_i a ha
    split at h
    · exact Except.noConfusion h
    · rename_i b hb
      split at h
      · injection h with h
        subst h
        rw [applyLayer_ok_eq a ovrMap b hb, applyLayer_ok_eq base ovrFile a ha]
      · exact Except.noConfusion h

/-- C4: merge precedence of the configuration resolver — for any base B,
override file O and override mapping M, each layer independently present
or absent, a successful resolve(B,O,M) equals resolve(B,none,none)
deep-merged with O then with M; and key-by-key the latest layer holding a
key wins while keys absent from an override layer are left untouched, so
no whole-section overwrite occurs. -/
theorem resolve_merge_precedence (B : ConfigDoc) (O M : Option ConfigDoc)
    (B' C : ConfigDoc)
    (h1 : resolve B none none = .ok B')
    (h2 : resolve B O M = .ok C) :
    C = deepMerge (deepMerge B' (O.getD [])) (M.getD []) ∧
    ∀ s k, lookupVal C s k =
      ((lookupVal (M.getD []) s k).orElse fun _ =>
        ((lookupVal (O.getD []) s k).orElse fun _ => lookupVal B' s k)) := by
  have hB : B' = B := by
    have hb := resolve_ok_eq B none none B' h1
    simpa [deepMerge_nil] using hb
  have hC := resolve_ok_eq B O M C h2
  constructor
  · rw [hC, hB]
  · intro s k
    rw [hC, hB]
    simp [lookupVal_deepMerge]

/-- Witness for C4 at a concrete base, override file and override mapping:
the override file lowers crf from 23 to 18 leaving the sibling key
untouched, the override mapping raises the thumbnail count from 6 to 10,
and the resolved document's lookups follow the three-layer precedence. -/
theorem resolve_merge_precedence_witness :
    lookupVal
        [("video", [("crf", CfgVal.num 18), ("use_hardware", CfgVal.bool true)]),
         ("thumbnails", [("count", CfgVal.num 10)])] "video" "crf" =
      ((lookupVal [("thumbnails", [("count", CfgVal.num 10)])] "video" "crf").orElse fun _ =>
        ((lookupVal [("video", [("crf", CfgVal.num 18)])] "video" "crf").orElse fun _ =>
          lookupVal
            [("video", [("crf", CfgVal.num 23), ("use_hardware", CfgVal.bool true)]),
             ("thumbnails", [("count", CfgVal.num 6)])] "video" "crf")) :=
  (resolve_merge_precedence
    [("video", [("crf", CfgVal.num 23), ("use_hardware", CfgVal.bool true)]),
     ("thumbnails", [("count", CfgVal.num 6)])]
    (some [("video", [("crf", CfgVal.num 18)])])
    (some [("thumbnails", [("count", CfgVal.num 10)])])
    [("video", [("crf", CfgVal.num 23), ("use_hardware", CfgVal.bool true)]),
     ("thumbnails", [("count", CfgVal.num 6)])]
    [("video", [("crf", CfgVal.num 18), ("use_hardware", CfgVal.bool true)]),
     ("thumbnails", [("count", CfgVal.num 10)])]
    rfl rfl).2 "video" "crf"

/-- C9: the preset editor's updateAlgo changes nothing outside the named
algorithm section — chapters_text and every other section are untouched —
and inside that section exactly the fields present in the patch are
replaced while absent fields keep their previous values. -/
theorem updateAlgo_frame (u : AlgoUpdate) (p : Preset) :
    (updateAlgo u p).chapters_text = p.chapters_text ∧
    (∀ k : AlgoKey, k ≠ u.key →
      sectionAgrees k (updateAlgo u p).algorithms p.algorithms) ∧
    patchApplied u p.algorithms (updateAlgo u p).algorithms := by
  refine ⟨?_, ?_, ?_⟩
  · cases u <;> rfl
  · intro k hk
    cases u <;> cases k <;>
      simp [AlgoUpdate.key] at hk ⊢ <;>
      simp [sectionAgrees, updateAlgo]
  · cases u <;>
      simp [patchApplied, updateAlgo, LevelerAlgo.spread, FilteringAlgo.spread,
        LoudnessAlgo.spread, NoiseAlgo.spread, CuttingAlgo.spread]

/-! Agent and orchestrator lemmas. -/

theorem runAgent_agent (n : AgentName) (b : AgentBehavior) :
    (runAgent n b).agent = n.id := by
  cases h : b.outcome <;> simp [runAgent, h]

theorem runAgent_error_of_ok (n : AgentName) (b : AgentBehavior) (ps : List String)
    (h : b.outcome = .ok ps) : (runAgent n b).error = none := by
  simp [runAgent, h]

theorem runAgent_error_of_err (n : AgentName) (b : AgentBehavior) (m : String)
    (h : b.outcome = .error m) :
    (runAgent n b).error = some (n.id ++ ": " ++ m) := by
  simp [runAgent, h]

theorem runAgent_error_none_iff (n : AgentName) (b : AgentBehavior) :
    (runAgent n b).error = none ↔ (runAgent n b).success = true := by
  cases h : b.outcome <;> simp [runAgent, h]

/-- In a duplicate-free list where exactly one element maps to some, the
filterMap is that one value alone. -/
theorem filterMap_eq_single {α β : Type} (l : List α) (g : α → Option β)
    (f : α) (x : β) (hnd : l.Nodup) (hmem : f ∈ l)
    (hnone : ∀ a ∈ l, a ≠ f → g a = none) (hf : g f = some x) :
    l.filterMap g = [x] := by
  induction l with
  | nil => cases hmem
  | cons a rest ih =>
      rcases List.mem_cons.mp hmem with h | h
      · subst h
        have hrest : ∀ b ∈ rest, g b = none := by
          intro b hb
          refine hnone b (List.mem_cons_of_mem _ hb) ?_
          intro hbf
          subst hbf
          exact (List.nodup_cons.mp hnd).1 hb
        simp only [List.filterMap_cons, hf]
        rw [List.filterMap_eq_nil_iff.mpr hrest]
      · have haf : a ≠ f := by
          intro he
          subst he
          exact (List.nodup_cons.mp hnd).1 h
        rw [List.filterMap_cons, hnone a (List.mem_cons_self a rest) haf]
        exact ih (List.nodup_cons.mp hnd).2 h
          (fun b hb hbf => hnone b (List.mem_cons_of_mem _ hb) hbf)

/-- C5: an agent's execute never raises past its own boundary — it is a
total function into AgentResult; an internal failure is returned as
success=false with a non-null error message naming the stage, and
elapsed time is reported regardless of outcome. -/
theorem agent_boundary_total (n : AgentName) (b : AgentBehavior) :
    (runAgent n b).elapsed_time = b.elapsed ∧
    (runAgent n b).agent = n.id ∧
    ((runAgent n b).success = false ↔ (runAgent n b).error.isSome = true) ∧
    (∀ m, b.outcome = .error m →
      (runAgent n b).success = false ∧
      (runAgent n b).error = some (n.id ++ ": " ++ m)) := by
  cases h : b.outcome <;> simp [runAgent, h]

/-- C1: the orchestrator's process never raises — it is a total function
into PipelineRunResult — and even when every agent fails it returns a
result whose error_messages is non-empty (a fatal configuration error is
likewise returned as a message, not an exception). -/
theorem process_never_raises (base : ConfigDoc) (overrides : Option ConfigDoc)
    (inputPath outputDir : String) (env : AgentName → AgentBehavior)
    (hfail : ∀ n : AgentName, ∃ m, (env n).outcome = .error m) :
    (process base overrides inputPath outputDir env).error_messages ≠ [] := by
  unfold process
  split
  · simp
  · obtain ⟨mb, hb⟩ := hfail .backup
    simp [processAgents, pipelineResults, agentOrder, List.filterMap_cons,
      runAgent, hb]

/-- Witness for C1: a run whose five agents all fail still returns a
result with non-empty error_messages. -/
theorem process_never_raises_witness :
    (process [("video", [("crf", CfgVal.num 23)])] none "in.mp4" "out"
      (fun _ => ⟨.error "missing input", 1⟩)).error_messages ≠ [] :=
  process_never_raises [("video", [("crf", CfgVal.num 23)])] none "in.mp4" "out"
    (fun _ => ⟨.error "missing input", 1⟩)
    (fun _ => ⟨"missing input", rfl⟩)

/-- C2: partial-failure containment — when exactly one agent fails and
configuration resolution succeeds, every agent is still invoked in the
fixed order, error_messages is exactly one entry naming the failed stage,
and the outputs of the succeeding stages (captions path, thumbnail paths)
are non-null in the returned bundle. -/
theorem partial_failure_containment (base : ConfigDoc)
    (overrides : Option ConfigDoc) (inputPath outputDir : String)
    (env : AgentName → AgentBehavior) (f : AgentName) (m : String)
    (hres : ∃ cfg, resolve base none overrides = .ok cfg)
    (hf : (env f).outcome = .error m)
    (hok : ∀ n : AgentName, n ≠ f → ∃ ps, (env n).outcome = .ok ps ∧ ps ≠ []) :
    ((pipelineResults env).map (fun r => r.agent)) = agentOrder.map AgentName.id ∧
    (process base overrides inputPath outputDir env).error_messages
      = [f.id ++ ": " ++ m] ∧
    (f ≠ .captions →
      (process base overrides inputPath outputDir env).captions_srt_path.isSome
        = true) ∧
    (f ≠ .thumbnails →
      (process base overrides inputPath outputDir env).thumbnail_paths.isSome
        = true) := by
  obtain ⟨cfg, hcfg⟩ := hres
  have hp : process base overrides inputPath outputDir env
      = processAgents outputDir env := by
    simp [process, hcfg]
  refine ⟨?_, ?_, ?_, ?_⟩
  · simp [pipelineResults, agentOrder, runAgent_agent]
  · rw [hp]
    show (pipelineResults env).filterMap (fun r => r.error) = _
    unfold pipelineResults
    rw [List.filterMap_map]
    refine filterMap_eq_single agentOrder _ f _ (by decide) ?_ ?_ ?_
    · cases f <;> simp [agentOrder]
    · intro n _ hnf
      obtain ⟨ps, hps, _⟩ := hok n hnf
      exact runAgent_error_of_ok n (env n) ps hps
    · exact runAgent_error_of_err f (env f) m hf
  · intro hcap
    obtain ⟨ps, hps, hne⟩ := hok .captions (fun he => hcap he.symm)
    rw [hp]
    cases ps with
    | nil => exact absurd rfl hne
    | cons p rest => simp [processAgents, runAgent, hps]
  · intro hth
    obtain ⟨ps, hps, hne⟩ := hok .thumbnails (fun he => hth he.symm)
    rw [hp]
    simp [processAgents, runAgent, hps]

/-- Witness for C2: with only the AudioProcessor failing, the pipeline
returns exactly one error entry naming the audio stage together with
non-null captions and thumbnail outputs. -/
theorem partial_failure_containment_witness :
    (process [("video", [("crf", CfgVal.num 23)])] none "in.mp4" "out"
        (fun n => if n = .audio then ⟨.error "missing input", 1⟩
          else ⟨.ok ["p"], 2⟩)).error_messages
      = ["AudioProcessorAgent: missing input"] ∧
    (process [("video", [("crf", CfgVal.num 23)])] none "in.mp4" "out"
        (fun n => if n = .audio then ⟨.error "missing input", 1⟩
          else ⟨.ok ["p"], 2⟩)).captions_srt_path.isSome = true ∧
    (process [("video", [("crf", CfgVal.num 23)])] none "in.mp4" "out"
        (fun n => if n = .audio then ⟨.error "missing input", 1⟩
          else ⟨.ok ["p"], 2⟩)).thumbnail_paths.isSome = true := by
  have h := partial_failure_containment [("video", [("crf", CfgVal.num 23)])]
    none "in.mp4" "out"
    (fun n => if n = .audio then ⟨.error "missing input", 1⟩ else ⟨.ok ["p"], 2⟩)
    .audio "missing input"
    ⟨[("video", [("crf", CfgVal.num 23)])], rfl⟩
    rfl
    (by
      intro n hn
      cases n
      · exact ⟨["p"], rfl, by simp⟩
      · exact absurd rfl hn
      · exact ⟨["p"], rfl, by simp⟩
      · exact ⟨["p"], rfl, by simp⟩
      · exact ⟨["p"], rfl, by simp⟩)
  exact ⟨h.2.1, h.2.2.1 (by decide), h.2.2.2 (by decide)⟩

/-- C3: error aggregation — for a run whose configuration resolves, the
bundle's error_messages is exactly the sequence of non-null error fields
of the per-agent results in execution order, and it is empty exactly when
every agent's result reports success. -/
theorem error_message_aggregation (base : ConfigDoc)
    (overrides : Option ConfigDoc) (inputPath outputDir : String)
    (env : AgentName → AgentBehavior) (cfg : ConfigDoc)
    (hres : resolve base none overrides = .ok cfg) :
    (process base overrides inputPath outputDir env).error_messages
      = (pipelineResults env).filterMap (fun r => r.error) ∧
    ((process base overrides inputPath outputDir env).error_messages = [] ↔
      ∀ r ∈ pipelineResults env, r.success = true) := by
  have hp : process base overrides inputPath outputDir env
      = processAgents outputDir env := by
    simp [process, hres]
  rw [hp]
  constructor
  · rfl
  · show (pipelineResults env).filterMap (fun r => r.error) = [] ↔ _
    rw [List.filterMap_eq_nil_iff]
    constructor <;> intro h r hr
    · obtain ⟨n, _, rfl⟩ := List.mem_map.mp hr
      exact (runAgent_error_none_iff n (env n)).mp (h _ hr)
    · obtain ⟨n, _, rfl⟩ := List.mem_map.mp hr
      exact (runAgent_error_none_iff n (env n)).mpr (h _ hr)

/-- Witness for C3: a fully succeeding run has empty error_messages, by
the aggregation theorem applied at a concrete environment. -/
theorem error_message_aggregation_witness :
    (process [("video", [("crf", CfgVal.num 23)])] none "in.mp4" "out"
      (fun _ => ⟨.ok ["p"], 1⟩)).error_messages = [] := by
  have h := error_message_aggregation [("video", [("crf", CfgVal.num 23)])]
    none "in.mp4" "out" (fun _ => ⟨.ok ["p"], 1⟩)
    [("video", [("crf", CfgVal.num 23)])] rfl
  exact h.2.mpr (by decide)

/-- C10: each REST client operation throws exactly when the response is not
ok: getPreset returns the parsed body on ok and throws "Failed to load
preset" otherwise; savePreset throws "Failed to save preset" on non-ok;
uploadAndProcess returns the parsed body on ok and on non-ok throws a
message that contains the response body text. -/
theorem restClient_throw_behavior {α : Type} (rp : WebResponse Preset)
    (rs : WebResponse Unit) (ru : WebResponse α) :
    ((∃ e, getPreset rp = .error e) ↔ rp.ok = false) ∧
    (rp.ok = true → getPreset rp = .ok rp.json) ∧
    (rp.ok = false → getPreset rp = .error "Failed to load preset") ∧
    ((∃ e, savePreset rs = .error e) ↔ rs.ok = false) ∧
    (rs.ok = false → savePreset rs = .error "Failed to save preset") ∧
    ((∃ e, uploadAndProcess ru = .error e) ↔ ru.ok = false) ∧
    (ru.ok = true → uploadAndProcess ru = .ok ru.json) ∧
    (ru.ok = false →
      ∃ pre post, uploadAndProcess ru = .error (pre ++ ru.bodyText ++ post)) := by
  refine ⟨?_, ?_, ?_, ?_, ?_, ?_, ?_, ?_⟩
  · cases h : rp.ok <;> simp [getPreset, h]
  · intro h; simp [getPreset, h]
  · intro h; simp [getPreset, h]
  · cases h : rs.ok <;> simp [savePreset, h]
  · intro h; simp [savePreset, h]
  · cases h : ru.ok <;> simp [uploadAndProcess, h]
  · intro h; simp [uploadAndProcess, h]
  · intro h
    exact ⟨"Processing failed: ", "", by simp [uploadAndProcess, h]⟩

/-! Log writer lemmas. -/

theorem runSteps_append (fs : LogDirState) (a b : List LogStep) :
    runSteps fs (a ++ b) = runSteps (runSteps fs a) b := by
  simp [runSteps, List.foldl_append]

theorem runSteps_appends_logFile (ls : List String) (fs : LogDirState) :
    (runSteps fs (ls.map .appendTemp)).logFile = fs.logFile := by
  induction ls generalizing fs with
  | nil => rfl
  | cons l rest ih =>
      simp only [List.map_cons, runSteps, List.foldl_cons, stepFS]
      exact ih _

theorem runSteps_appends_temp (ls : List String) (t : List String)
    (lf : Option (List String)) :
    runSteps ⟨some t, lf⟩ (ls.map .appendTemp) = ⟨some (t ++ ls), lf⟩ := by
  induction ls generalizing t with
  | nil => simp [runSteps]
  | cons l rest ih =>
      simp only [List.map_cons, runSteps, List.foldl_cons, stepFS]
      have := ih (t ++ [l])
      simp [runSteps] at this
      simpa using this

theorem runSteps_plan_cons (l0 : String) (ls : List String) :
    runSteps freshLogDir ((l0 :: ls).map .appendTemp) = ⟨some (l0 :: ls), none⟩ := by
  simp only [List.map_cons, runSteps, List.foldl_cons]
  have h0 : stepFS freshLogDir (.appendTemp l0) = ⟨some [l0], none⟩ := rfl
  rw [h0]
  have := runSteps_appends_temp ls [l0] none
  simpa [runSteps] using this

/-- C6: log-write atomicity — for every record, running any prefix of the
write plan (an interrupted write) leaves the visible log path either
absent or holding the complete serialized record, never a partial file;
and the full plan persists the complete record at the log path. -/
theorem log_write_atomic (r : ProcessingLogRecord) (k : Nat) :
    ((runSteps freshLogDir ((writePlan r).take k)).logFile = none ∨
      (runSteps freshLogDir ((writePlan r).take k)).logFile
        = some (serializeRecord r)) ∧
    (runSteps freshLogDir (writePlan r)).logFile = some (serializeRecord r) := by
  have hfull : (runSteps freshLogDir (writePlan r)).logFile
      = some (serializeRecord r) := by
    unfold writePlan
    rw [runSteps_append]
    have hcons : serializeRecord r
        = ("timestamp=" ++ r.timestamp) :: ("config_path=" ++ r.config_path)
          :: ("total_time_seconds=" ++ toString r.total_time_seconds)
          :: ("success=" ++ toString r.success)
          :: r.agent_results.map (fun ar =>
            ar.1 ++ "=" ++ toString ar.2.success ++ "," ++ ar.2.error.getD ""
              ++ "," ++ toString ar.2.elapsed_time) := rfl
    rw [hcons, runSteps_plan_cons]
    rfl
  refine ⟨?_, hfull⟩
  by_cases hk : k ≤ (serializeRecord r).length
  · left
    unfold writePlan
    rw [List.take_append_eq_append_take]
    have h1 : k - ((serializeRecord r).map LogStep.appendTemp).length = 0 := by
      simp [hk]
    rw [h1, List.take_zero, List.append_nil, ← List.map_take]
    exact runSteps_appends_logFile _ _
  · have hlen : (writePlan r).length ≤ k := by
      have hwp : (writePlan r).length = (serializeRecord r).length + 1 := by
        simp [writePlan]
      omega
    rw [List.take_of_length_le hlen]
    right
    exact hfull

/-! Backup retention. -/

/-- C7: retention eviction — with the directory holding N entries
(oldest-first), a configured max count K < N and every entry within the
max age, the next backup followed by the retention check leaves exactly K
entries, namely the newest K of the N+1, so exactly the N+1−K oldest
entries were evicted, each no newer than any kept entry. -/
theorem retention_eviction (now maxAge K : Nat) (entries : List BackupEntry)
    (e : BackupEntry)
    (hK : K < entries.length)
    (hage : ∀ b ∈ entries ++ [e], now - b.created_at ≤ maxAge)
    (hsorted : (entries ++ [e]).Pairwise
      (fun a b => a.created_at ≤ b.created_at)) :
    (performBackup now maxAge K entries e).length = K ∧
    performBackup now maxAge K entries e
      = (entries ++ [e]).drop (entries.length + 1 - K) ∧
    ∀ d ∈ (entries ++ [e]).take (entries.length + 1 - K),
      ∀ kp ∈ performBackup now maxAge K entries e,
        d.created_at ≤ kp.created_at := by
  have hfilter : (entries ++ [e]).filter (fun b => now - b.created_at ≤ maxAge)
      = entries ++ [e] :=
    List.filter_eq_self.mpr (fun b hb => decide_eq_true (hage b hb))
  have heq : performBackup now maxAge K entries e
      = (entries ++ [e]).drop (entries.length + 1 - K) := by
    unfold performBackup applyRetention
    simp only [hfilter, List.length_append, List.length_cons, List.length_nil]
  refine ⟨?_, heq, ?_⟩
  · rw [heq, List.length_drop]
    simp only [List.length_append, List.length_cons, List.length_nil]
    omega
  · intro d hd kp hkp
    rw [heq] at hkp
    have hsplit := hsorted
    rw [← List.take_append_drop (entries.length + 1 - K) (entries ++ [e])]
      at hsplit
    exact (List.pairwise_append.mp hsplit).2.2 d hd kp hkp

/-- Witness for C7: three entries at times 1,2,3, max count 2: the backup
at time 4 followed by retention leaves exactly 2 entries. -/
theorem retention_eviction_witness :
    (performBackup 10 100 2
      [⟨"a.mp4", "b1", 1⟩, ⟨"a.mp4", "b2", 2⟩, ⟨"a.mp4", "b3", 3⟩]
      ⟨"a.mp4", "b4", 4⟩).length = 2 :=
  (retention_eviction 10 100 2
    [⟨"a.mp4", "b1", 1⟩, ⟨"a.mp4", "b2", 2⟩, ⟨"a.mp4", "b3", 3⟩]
    ⟨"a.mp4", "b4", 4⟩ (by decide) (by decide) (by decide)).1

/-! Dry run. -/

/-- C8: dry_run is pure and deterministic — it returns the world exactly
as it received it (no output, backup or log files created), a second call
on the unchanged world returns the identical report, all_passed is the
conjunction of all entries of the checks mapping, and the full mapping
with all six check names is always returned. -/
theorem dry_run_pure (w : World) (input : String) :
    (dry_run w input).2 = w ∧
    (dry_run ((dry_run w input).2) input).1 = (dry_run w input).1 ∧
    (dry_run w input).1.all_passed
      = ((dry_run w input).1.checks).all (fun c => c.2) ∧
    ((dry_run w input).1.all_passed = true ↔
      ∀ c ∈ (dry_run w input).1.checks, c.2 = true) ∧
    ((dry_run w input).1.checks).map (fun c => c.1) = dryRunCheckNames := by
  refine ⟨rfl, rfl, rfl, ?_, rfl⟩
  simp [dry_run, List.all_eq_true]

end ProdBench
